import Mathlib

/-!
Shallow embedding of the two core resolvers of `src/whattime.py`:

* `TimezoneHandler.find_timezone` (zone identifier resolution, lines 438-478),
  embedded as `find_timezone` below, parameterized by the external
  fuzzywuzzy similarity scorer and the pytz zone catalog;
* `TimeParser.parse_time` (temporal expression resolution, lines 534-729),
  embedded as `parse_time` / `parse_timeE` below, parameterized by the
  external pieces of its environment: pytz zone validity, the `astimezone`
  conversion to UTC, the `dateparser` fallback, and the wall-clock reading
  `datetime.now(tz)`.

Python `datetime` values are modelled by the `Datetime` structure; aware
datetimes carry `tzinfo = some zone`.  Comparison and subtraction of two
aware datetimes that share the same `tzinfo` (the only comparisons the
source performs) reduce to comparison of the naive fields, modelled via a
civil-calendar day number (`rataDie`) plus the time of day in microseconds.
-/

/-! ### Character and string helpers (Python `str.strip/lower/upper`, `re.sub`) -/

def isSp (c : Char) : Bool := c = ' ' ∨ c = '\t' ∨ c = '\n' ∨ c = '\r'

def upChar (c : Char) : Char :=
  if 'a' ≤ c ∧ c ≤ 'z' then Char.ofNat (c.toNat - 32) else c

def lowChar (c : Char) : Char :=
  if 'A' ≤ c ∧ c ≤ 'Z' then Char.ofNat (c.toNat + 32) else c

/-- Python `str.strip()` on a character list. -/
def trimCl (l : List Char) : List Char :=
  ((l.dropWhile isSp).reverse.dropWhile isSp).reverse

/-- Worker for `collapseWs`; the flag records whether the previous character
was whitespace (already emitted as a single space). -/
def collapseGo : Bool → List Char → List Char
  | _, [] => []
  | inSp, c :: rest =>
    if isSp c then
      if inSp then collapseGo true rest
      else ' ' :: collapseGo true rest
    else c :: collapseGo false rest

/-- Python `re.sub(r'\s+', ' ', s)`: every run of whitespace becomes one space. -/
def collapseWs (l : List Char) : List Char := collapseGo false l

/-- The input normalization of `TimeParser.parse_time`:
`re.sub(r'\s+', ' ', input_text.strip().lower())`. -/
def normalizeT (s : String) : String :=
  String.mk (collapseWs (trimCl (s.toList.map lowChar)))

def startsWithCl : List Char → List Char → Bool
  | [], _ => true
  | _ :: _, [] => false
  | p :: ps, c :: cs => p == c && startsWithCl ps cs

/-- Substring containment, Python `pat in s`. -/
def containsSub (pat : List Char) : List Char → Bool
  | [] => startsWithCl pat []
  | c :: rest => startsWithCl pat (c :: rest) || containsSub pat rest

def digitsToNat (ds : List Char) : Nat :=
  ds.foldl (fun a c => a * 10 + (c.toNat - 48)) 0

/-- Worker for `removeAllCl` with explicit fuel (the fuel never runs out,
since every step shortens the list). -/
def removeAllGo (pat : List Char) : Nat → List Char → List Char
  | 0, l => l
  | _ + 1, [] => []
  | fuel + 1, c :: rest =>
    if pat ≠ [] ∧ startsWithCl pat (c :: rest) then
      removeAllGo pat fuel ((c :: rest).drop pat.length)
    else c :: removeAllGo pat fuel rest

/-- Python `s.replace(pat, '')`: delete every (left-to-right, non-overlapping)
occurrence of `pat`. -/
def removeAllCl (pat l : List Char) : List Char := removeAllGo pat l.length l

/-! ### The `datetime` model -/

/-- A Python `datetime.datetime`; `tzinfo = some z` models an aware value in
zone `z`, `tzinfo = none` a naive one. -/
structure Datetime where
  year : Nat
  month : Nat
  day : Nat
  hour : Nat
  minute : Nat
  second : Nat
  microsecond : Nat
  tzinfo : Option String
deriving DecidableEq

def isLeap (y : Nat) : Bool := y % 4 == 0 && (y % 100 != 0 || y % 400 == 0)

def daysInMonth (y m : Nat) : Nat :=
  if m = 2 then (if isLeap y then 29 else 28)
  else if m = 4 ∨ m = 6 ∨ m = 9 ∨ m = 11 then 30
  else 31

/-- The day after a civil date, used for `+ timedelta(days=1)`. -/
def nextDate : Nat × Nat × Nat → Nat × Nat × Nat
  | (y, m, d) =>
    if d < daysInMonth y m then (y, m, d + 1)
    else if m < 12 then (y, m + 1, 1)
    else (y + 1, 1, 1)

def iterDays : Nat → Nat × Nat × Nat → Nat × Nat × Nat
  | 0, t => t
  | n + 1, t => iterDays n (nextDate t)

/-- Day number of a civil date (0 = 1970-01-01), the standard
days-from-civil computation. -/
def rataDie (y m d : Nat) : Int :=
  let yi : Int := y
  let mi : Int := m
  let di : Int := d
  let y2 : Int := if mi ≤ 2 then yi - 1 else yi
  let era : Int := (if 0 ≤ y2 then y2 else y2 - 399) / 400
  let yoe : Int := y2 - era * 400
  let doy : Int := (153 * (mi + (if 2 < mi then -3 else 9)) + 2) / 5 + di - 1
  let doe : Int := yoe * 365 + yoe / 4 - yoe / 100 + doy
  era * 146097 + doe - 719468

def usPerDay : Nat := 86400000000

def twelveHoursUs : Int := 43200000000

/-- Time of day in microseconds. -/
def todUs (dt : Datetime) : Nat :=
  ((dt.hour * 60 + dt.minute) * 60 + dt.second) * 1000000 + dt.microsecond

/-- Position of the naive fields on the absolute timeline, in microseconds.
Two aware datetimes sharing one `tzinfo` compare (and subtract) exactly as
their naive fields do, which is how the source always uses comparisons. -/
def toEpochUs (dt : Datetime) : Int :=
  rataDie dt.year dt.month dt.day * (usPerDay : Int) + (todUs dt : Int)

/-- Python `dt + timedelta(days=1)` on an aware datetime: calendar fields
advance, time of day and `tzinfo` stay. -/
def addOneDay (dt : Datetime) : Datetime :=
  { dt with
    year := (nextDate (dt.year, dt.month, dt.day)).1
    month := (nextDate (dt.year, dt.month, dt.day)).2.1
    day := (nextDate (dt.year, dt.month, dt.day)).2.2 }

/-- Python `dt + timedelta(...)` for a nonnegative span of `n` microseconds. -/
def addUs (dt : Datetime) (n : Nat) : Datetime :=
  { dt with
    year := (iterDays ((todUs dt + n) / usPerDay) (dt.year, dt.month, dt.day)).1
    month := (iterDays ((todUs dt + n) / usPerDay) (dt.year, dt.month, dt.day)).2.1
    day := (iterDays ((todUs dt + n) / usPerDay) (dt.year, dt.month, dt.day)).2.2
    hour := (todUs dt + n) % usPerDay / 3600000000
    minute := (todUs dt + n) % usPerDay / 60000000 % 60
    second := (todUs dt + n) % usPerDay / 1000000 % 60
    microsecond := (todUs dt + n) % usPerDay % 1000000 }

/-- The field update done by
`now.replace(hour=h, minute=m, second=0, microsecond=0)`. -/
def setHM (dt : Datetime) (h m : Nat) : Datetime :=
  { dt with hour := h, minute := m, second := 0, microsecond := 0 }

/-- Python `datetime.replace` validates its arguments: out-of-range hour or
minute raises `ValueError`. -/
def replaceHM (dt : Datetime) (h m : Nat) : Except String Datetime :=
  if h ≤ 23 ∧ m ≤ 59 then .ok (setHM dt h m) else .error "ValueError"

/-- `datetime.now(tz)` / dateparser results are aware: attach the zone. -/
def withTz (dt : Datetime) (zone : String) : Datetime :=
  { dt with tzinfo := some zone }

/-- The rollover policy the source repeats after constructing a time on
today's date:
`if result < now: time_diff = now - result; if time_diff > timedelta(hours=12): result = result + timedelta(days=1)`. -/
def rolloverAdjust (now r : Datetime) : Datetime :=
  if toEpochUs r < toEpochUs now then
    (if twelveHoursUs < toEpochUs now - toEpochUs r then addOneDay r else r)
  else r

example : rataDie 1970 1 1 = 0 := by decide
example : rataDie 2024 3 1 - rataDie 2024 2 29 = 1 := by decide

/-! ### Zone identifier resolver (`TimezoneHandler.find_timezone`) -/

/-- The static alias table of the source, verbatim. -/
def COMMON_TIMEZONE_MAPPINGS : List (String × String) :=
  [("EST", "America/New_York"),
   ("EDT", "America/New_York"),
   ("CST", "America/Chicago"),
   ("CDT", "America/Chicago"),
   ("MST", "America/Denver"),
   ("MDT", "America/Denver"),
   ("PST", "America/Los_Angeles"),
   ("PDT", "America/Los_Angeles"),
   ("GMT", "Europe/London"),
   ("BST", "Europe/London"),
   ("CET", "Europe/Paris"),
   ("CEST", "Europe/Paris"),
   ("JST", "Asia/Tokyo"),
   ("AEST", "Australia/Sydney"),
   ("AEDT", "Australia/Sydney")]

/-- `user_input.strip().upper()`. -/
def normalizeZ (s : String) : String := String.mk ((trimCl s.toList).map upChar)

/-- First maximal element of a scored list (Python `max` keeps the first of
equal maxima), accumulator style mirroring fuzzywuzzy `extractOne`. -/
def bestBy (x : String × Nat) : List (String × Nat) → String × Nat
  | [] => x
  | y :: ys => bestBy (if x.2 < y.2 then y else x) ys

/-- fuzzywuzzy `process.extractOne(q, COMMON_TIMEZONE_MAPPINGS.keys(), score_cutoff=85)`,
parameterized by the similarity scorer: the best-scoring alias key if it
reaches the cutoff, else nothing. -/
def extractOneAlias (score : String → String → Nat) (q : String) : Option String :=
  match COMMON_TIMEZONE_MAPPINGS.map (fun p => (p.1, score q p.1)) with
  | [] => none
  | x :: xs => if 85 ≤ (bestBy x xs).2 then some (bestBy x xs).1 else none

/-- Stable descending insertion (equal scores keep first-seen order, as
`heapq.nlargest` does). -/
def insertDesc (x : String × Nat) : List (String × Nat) → List (String × Nat)
  | [] => [x]
  | y :: ys => if x.2 < y.2 then y :: insertDesc x ys else x :: y :: ys

def sortDesc : List (String × Nat) → List (String × Nat)
  | [] => []
  | x :: xs => insertDesc x (sortDesc xs)

/-- fuzzywuzzy `process.extract(q, choices, limit=3)`: the top three choices
by score, best first, ties in choice order. -/
def extractTop3 (score : String → String → Nat) (q : String)
    (choices : List String) : List (String × Nat) :=
  (sortDesc (choices.map (fun c => (c, score q c)))).take 3

/-- `TimezoneHandler.find_timezone`, parameterized by the fuzzywuzzy scorer
and the pytz zone catalog (`pytz.all_timezones`).  Returns the match (if
any) and the suggestion list. -/
def find_timezone (score : String → String → Nat) (all_timezones : List String)
    (user_input : String) : Option String × List String :=
  let u := normalizeZ user_input
  match COMMON_TIMEZONE_MAPPINGS.lookup u with
  | some z => (some z, [])
  | none =>
    if all_timezones.contains u then (some u, [])
    else
      match extractOneAlias score u with
      | some k => (COMMON_TIMEZONE_MAPPINGS.lookup k, [])
      | none =>
        match extractTop3 score u all_timezones with
        | [] => (none, [])
        | b :: rest =>
          if 85 ≤ b.2 then (some b.1, rest.map Prod.fst)
          else (none, (b :: rest).map Prod.fst)

example : find_timezone (fun _ _ => 0) ["UTC"] " est " = (some "America/New_York", []) := by decide
example : find_timezone (fun _ _ => 0) ["UTC", "Zulu"] "UTC" = (some "UTC", []) := by decide
example : find_timezone (fun _ _ => 0) ["UTC", "Zulu"] "xyz" = (none, ["UTC", "Zulu"]) := by decide

/-! ### Temporal expression resolver (`TimeParser.parse_time`)

The regex stages operate on the normalized (lowercased, collapsed) text, so
the matchers below recognize the lowercase forms, exactly as the
case-insensitive patterns do on that text.  A meridian is `true` for `pm`,
`false` for `am`. -/

/-- `^(\d{1,2})\s*(am|pm)$` (the `simple_hour_pattern`). -/
def simpleHourMatch (s : String) : Option (Nat × Bool) :=
  let l := s.toList
  let ds := l.takeWhile Char.isDigit
  if ds.length = 0 ∨ 2 < ds.length then none
  else
    match (l.dropWhile Char.isDigit).dropWhile isSp with
    | ['a', 'm'] => some (digitsToNat ds, false)
    | ['p', 'm'] => some (digitsToNat ds, true)
    | _ => none

/-- `^(\d{1,2}):(\d{2})(?:\s*(am|pm))?$` (the `time_pattern`). -/
def timeMatch (s : String) : Option (Nat × Nat × Option Bool) :=
  let l := s.toList
  let ds := l.takeWhile Char.isDigit
  if ds.length = 0 ∨ 2 < ds.length then none
  else
    match l.dropWhile Char.isDigit with
    | ':' :: r2 =>
      let ms := r2.takeWhile Char.isDigit
      if ms.length = 2 then
        match r2.dropWhile Char.isDigit with
        | [] => some (digitsToNat ds, digitsToNat ms, none)
        | r3 =>
          match r3.dropWhile isSp with
          | ['a', 'm'] => some (digitsToNat ds, digitsToNat ms, some false)
          | ['p', 'm'] => some (digitsToNat ds, digitsToNat ms, some true)
          | _ => none
      else none
    | _ => none

/-- `^in\s+(\d+)\s*(hour|hr|minute|min)s?$` (the `relative_pattern`); the
Bool is `true` for an hour unit. -/
def relativeMatch (s : String) : Option (Nat × Bool) :=
  match s.toList with
  | 'i' :: 'n' :: rest =>
    if (rest.takeWhile isSp).length = 0 then none
    else
      let r1 := rest.dropWhile isSp
      let ds := r1.takeWhile Char.isDigit
      if ds.length = 0 then none
      else
        let r2 := (r1.dropWhile Char.isDigit).dropWhile isSp
        if r2 = ['h', 'o', 'u', 'r'] ∨ r2 = ['h', 'o', 'u', 'r', 's'] ∨
           r2 = ['h', 'r'] ∨ r2 = ['h', 'r', 's'] then
          some (digitsToNat ds, true)
        else if r2 = ['m', 'i', 'n', 'u', 't', 'e'] ∨ r2 = ['m', 'i', 'n', 'u', 't', 'e', 's'] ∨
                r2 = ['m', 'i', 'n'] ∨ r2 = ['m', 'i', 'n', 's'] then
          some (digitsToNat ds, false)
        else none
  | _ => none

/-- The meridian arithmetic the source repeats at each site:
`if pm and hour < 12: hour += 12 elif am and hour == 12: hour = 0`. -/
def adjustMer (h : Nat) (mer : Option Bool) : Nat :=
  match mer with
  | some true => if h < 12 then h + 12 else h
  | some false => if h = 12 then 0 else h
  | none => h

/-- The month-name alternation of `month_day_pattern`, in regex order, with
the `month_map` numbers. -/
def monthNames : List (List Char × Nat) :=
  [("january".toList, 1), ("february".toList, 2), ("march".toList, 3),
   ("april".toList, 4), ("may".toList, 5), ("june".toList, 6),
   ("july".toList, 7), ("august".toList, 8), ("september".toList, 9),
   ("october".toList, 10), ("november".toList, 11), ("december".toList, 12)]

/-- Try `<name>\s+(\d{1,2})` at the head of `l`; returns the matched text
and the day value. -/
def matchMonthDay (name : List Char) (l : List Char) : Option (List Char × Nat) :=
  if startsWithCl name l then
    let r1 := l.drop name.length
    let ws := r1.takeWhile isSp
    if ws.length = 0 then none
    else
      let ds := ((r1.dropWhile isSp).takeWhile Char.isDigit).take 2
      if ds.length = 0 then none
      else some (name ++ ws ++ ds, digitsToNat ds)
  else none

def tryMonthsAt (l : List Char) : Option (List Char × Nat × Nat) :=
  monthNames.findSome? fun nm =>
    (matchMonthDay nm.1 l).map fun md => (md.1, nm.2, md.2)

/-- `month_day_pattern.search`: leftmost position wins, alternatives in
pattern order at each position; yields (matched text, month, day). -/
def monthDaySearch : List Char → Option (List Char × Nat × Nat)
  | [] => none
  | c :: rest =>
    match tryMonthsAt (c :: rest) with
    | some r => some r
    | none => monthDaySearch rest

/-- `input_text.replace(month_day_match.group(), '').strip()`. -/
def timePartOf (t : String) (txt : List Char) : String :=
  String.mk (trimCl (removeAllCl txt t.toList))

/-- Hour/minute extraction of the month-day branch: `time_pattern` first,
then `simple_hour_pattern`, defaulting to midnight. -/
def monthDayTime (tp : String) : Nat × Nat :=
  match timeMatch tp with
  | some (h, m, mer) => (adjustMer h mer, m)
  | none =>
    match simpleHourMatch tp with
    | some (h, isPm) => (adjustMer h (some isPm), 0)
    | none => (0, 0)

/-- The year rule of the month-day branch:
`year = now.year; if month < now.month or (month == now.month and day < now.day): year += 1`. -/
def monthDayYear (now : Datetime) (mo d : Nat) : Nat :=
  if mo < now.month ∨ (mo = now.month ∧ d < now.day) then now.year + 1 else now.year

/-- The month-day branch: on a pattern hit, build
`datetime(year, month, day, hour, minute, 0, 0).replace(tzinfo=tz)`;
an invalid date (`ValueError`) is caught and the branch yields nothing,
letting the cascade continue. -/
def stageMonthDay (zone : String) (now : Datetime) (t : String) : Option Datetime :=
  match monthDaySearch t.toList with
  | none => none
  | some (txt, mo, d) =>
    let hm := monthDayTime (timePartOf t txt)
    let yr := monthDayYear now mo d
    if 1 ≤ d ∧ d ≤ daysInMonth yr mo ∧ hm.1 ≤ 23 ∧ hm.2 ≤ 59 then
      some { year := yr, month := mo, day := d, hour := hm.1, minute := hm.2,
             second := 0, microsecond := 0, tzinfo := some zone }
    else none

/-- The date-indicator vocabulary of the fallback stage, verbatim. -/
def dateWords : List String :=
  ["tomorrow", "today", "next", "tuesday", "wednesday", "thursday",
   "friday", "saturday", "sunday", "monday", "yesterday", "week",
   "month", "tmr", "tmrw"]

def hasDateIndicator (t : String) : Bool :=
  dateWords.any fun w => containsSub w.toList t.toList

/-- The dateparser fallback stage.  `fb` is the external
`dateparser.parse(text, settings=...)` capability (settings fixed by the
source); `toUTC` is `astimezone(pytz.UTC)`.  Date-bearing results are
returned in UTC; a bare time-of-day keeps only its clock fields, grafted
onto today under the rollover policy. -/
def stageFallback (toUTC : Datetime → Datetime) (fb : String → Option Datetime)
    (now : Datetime) (t : String) : Except String (Option Datetime) :=
  match fb t with
  | none => .ok none
  | some pd =>
    if pd.year ≠ now.year ∨ pd.month ≠ now.month ∨ pd.day ≠ now.day ∨
       containsSub "tomorrow".toList t.toList then
      .ok (some (toUTC pd))
    else if hasDateIndicator t then .ok (some (toUTC pd))
    else
      match replaceHM now pd.hour pd.minute with
      | .error e => .error e
      | .ok r => .ok (some (rolloverAdjust now r))

/-- The stages after the clock stage (reached also when a structurally
matching clock input fails the range check): relative offsets, the
month-day branch, then the dateparser fallback. -/
def afterClock (toUTC : Datetime → Datetime) (fb : String → Option Datetime)
    (zone : String) (now : Datetime) (t : String) : Except String (Option Datetime) :=
  match relativeMatch t with
  | some (n, isHour) =>
    .ok (some (if isHour then addUs now (n * 3600000000) else addUs now (n * 60000000)))
  | none =>
    match stageMonthDay zone now t with
    | some r => .ok (some r)
    | none => stageFallback toUTC fb now t

/-- The body of `TimeParser.parse_time` without its outermost
`try/except`: exceptions escaping a stage surface as `.error`.
Parameters: `vz` is pytz zone validity (`pytz.timezone` raises on an
unknown zone), `toUTC` the `astimezone(pytz.UTC)` conversion, `fb` the
dateparser capability, `nowC` the wall-clock reading that
`datetime.now(tz)` localizes. -/
def parse_timeE (vz : String → Bool) (toUTC : Datetime → Datetime)
    (fb : String → Option Datetime) (nowC : Datetime)
    (input_text base_timezone : String) : Except String (Option Datetime) :=
  let t := normalizeT input_text
  if vz base_timezone = false then .error "UnknownTimeZoneError"
  else
    let now := withTz nowC base_timezone
    if t = "now" then .ok (some now)
    else
      match simpleHourMatch t with
      | some (h, isPm) =>
        match replaceHM now (adjustMer h (some isPm)) 0 with
        | .error e => .error e
        | .ok r => .ok (some (rolloverAdjust now r))
      | none =>
        match timeMatch t with
        | some (h, m, mer) =>
          if adjustMer h mer ≤ 23 ∧ m ≤ 59 then
            .ok (some (rolloverAdjust now (setHM now (adjustMer h mer) m)))
          else afterClock toUTC fb base_timezone now t
        | none => afterClock toUTC fb base_timezone now t

/-- `TimeParser.parse_time`: the whole body is wrapped in
`try/except Exception: return None`, so every internal fault becomes a
`None` result. -/
def parse_time (vz : String → Bool) (toUTC : Datetime → Datetime)
    (fb : String → Option Datetime) (nowC : Datetime)
    (input_text base_timezone : String) : Option Datetime :=
  match parse_timeE vz toUTC fb nowC input_text base_timezone with
  | .ok v => v
  | .error _ => none

/-! ### The parse cache of `TimeParser`

`__init__` creates `self.cache = {}` with a one-hour `_cache_lifetime`, and
`_clean_cache` can expire and trim it — but nothing ever calls
`_clean_cache`, and `parse_time` never reads or writes `self.cache`.  A
cache entry maps (text, zone) to (result, wall-clock time of computation). -/

abbrev ParseCache : Type := List ((String × String) × (Datetime × Datetime))

/-- The expiry filter of `TimeParser._clean_cache` (the only cache
maintenance in the source, and it is never invoked by anything):
keep `v[1] + timedelta(hours=1) > now`. -/
def clean_cache_filter (nowWall : Datetime) (cache : ParseCache) : ParseCache :=
  cache.filter fun kv => toEpochUs nowWall < toEpochUs kv.2.2 + 3600000000

/-- A call of the `parse_time` method on a `TimeParser` whose state is
`cache`: the body never touches `self.cache`, so the result ignores the
cache and the cache is returned unchanged. -/
def parse_time_method (cache : ParseCache) (vz : String → Bool)
    (toUTC : Datetime → Datetime) (fb : String → Option Datetime)
    (nowC : Datetime) (input_text base_timezone : String) :
    Option Datetime × ParseCache :=
  (parse_time vz toUTC fb nowC input_text base_timezone, cache)

/-! ### Helper lemmas -/

theorem length_insertDesc (x : String × Nat) (l : List (String × Nat)) :
    (insertDesc x l).length = l.length + 1 := by
  induction l with
  | nil => rfl
  | cons y ys ih =>
    unfold insertDesc
    split
    · simp [ih]
    · simp

theorem length_sortDesc (l : List (String × Nat)) :
    (sortDesc l).length = l.length := by
  induction l with
  | nil => rfl
  | cons x xs ih => simp [sortDesc, length_insertDesc, ih]

theorem extractTop3_length (score : String → String → Nat) (q : String)
    (choices : List String) :
    (extractTop3 score q choices).length = min 3 choices.length := by
  unfold extractTop3
  rw [List.length_take, length_sortDesc, List.length_map]

theorem mem_bestBy : ∀ (xs : List (String × Nat)) (x : String × Nat),
    bestBy x xs ∈ x :: xs
  | [], x => by simp [bestBy]
  | y :: ys, x => by
    have h := mem_bestBy ys (if x.2 < y.2 then y else x)
    have hb : bestBy x (y :: ys) = bestBy (if x.2 < y.2 then y else x) ys := rfl
    rcases List.mem_cons.mp h with h1 | h1
    · rw [hb, h1]
      split
      · exact List.mem_cons_of_mem _ (List.mem_cons_self _ _)
      · exact List.mem_cons_self _ _
    · rw [hb]
      exact List.mem_cons_of_mem _ (List.mem_cons_of_mem _ h1)

theorem lookup_isSome_of_mem :
    ∀ (l : List (String × String)) (k v : String), (k, v) ∈ l →
      (l.lookup k).isSome := by
  intro l
  induction l with
  | nil => intro k v h; cases h
  | cons a t ih =>
    intro k v h
    obtain ⟨a1, a2⟩ := a
    rcases List.mem_cons.mp h with h1 | h1
    · rw [Prod.mk.injEq] at h1
      simp [List.lookup, h1.1]
    · by_cases hb : (k == a1)
      · simp [List.lookup, hb]
      · simp only [List.lookup, hb]
        exact ih k v h1

theorem extractOneAlias_gen (al : List (String × String))
    (score : String → String → Nat) (q k : String)
    (h : (match al.map (fun p => (p.1, score q p.1)) with
          | [] => none
          | x :: xs => if 85 ≤ (bestBy x xs).2 then some (bestBy x xs).1 else none)
         = some k) :
    (al.lookup k).isSome := by
  cases hal : al.map (fun p => (p.1, score q p.1)) with
  | nil => rw [hal] at h; cases h
  | cons x xs =>
    rw [hal] at h
    have h' : (if 85 ≤ (bestBy x xs).2 then some (bestBy x xs).1 else none)
        = some k := h
    by_cases hc : 85 ≤ (bestBy x xs).2
    · rw [if_pos hc, Option.some.injEq] at h'
      have hb : bestBy x xs ∈ x :: xs := mem_bestBy xs x
      rw [← hal] at hb
      rcases List.mem_map.mp hb with ⟨p, hp, hpe⟩
      have hk : k = p.1 := by rw [← h', ← hpe]
      rw [hk]
      exact lookup_isSome_of_mem _ p.1 p.2 hp
    · rw [if_neg hc] at h'
      cases h'

theorem extractOneAlias_lookup_isSome (score : String → String → Nat)
    (q k : String) (h : extractOneAlias score q = some k) :
    (COMMON_TIMEZONE_MAPPINGS.lookup k).isSome :=
  extractOneAlias_gen COMMON_TIMEZONE_MAPPINGS score q k h

theorem parse_time_ok (vz : String → Bool) (toUTC : Datetime → Datetime)
    (fb : String → Option Datetime) (nowC : Datetime) (inp zone : String)
    (v : Option Datetime)
    (h : parse_timeE vz toUTC fb nowC inp zone = .ok v) :
    parse_time vz toUTC fb nowC inp zone = v := by
  unfold parse_time
  rw [h]

theorem parse_time_error (vz : String → Bool) (toUTC : Datetime → Datetime)
    (fb : String → Option Datetime) (nowC : Datetime) (inp zone : String)
    (e : String)
    (h : parse_timeE vz toUTC fb nowC inp zone = .error e) :
    parse_time vz toUTC fb nowC inp zone = none := by
  unfold parse_time
  rw [h]

theorem parse_timeE_simpleHour (vz : String → Bool) (toUTC : Datetime → Datetime)
    (fb : String → Option Datetime) (nowC : Datetime) (inp zone : String)
    (h : Nat) (p : Bool)
    (hvz : vz zone = true)
    (hsm : simpleHourMatch (normalizeT inp) = some (h, p))
    (hle : adjustMer h (some p) ≤ 23) :
    parse_timeE vz toUTC fb nowC inp zone
      = .ok (some (rolloverAdjust (withTz nowC zone)
          (setHM (withTz nowC zone) (adjustMer h (some p)) 0))) := by
  have hne : normalizeT inp ≠ "now" := by
    intro he
    rw [he, show simpleHourMatch "now" = none from by decide] at hsm
    cases hsm
  unfold parse_timeE
  rw [if_neg (by simp [hvz]), if_neg hne]
  simp only [hsm, replaceHM]
  rw [if_pos ⟨hle, by omega⟩]

theorem parse_timeE_clock (vz : String → Bool) (toUTC : Datetime → Datetime)
    (fb : String → Option Datetime) (nowC : Datetime) (inp zone : String)
    (h m : Nat) (mer : Option Bool)
    (hvz : vz zone = true)
    (hsm : simpleHourMatch (normalizeT inp) = none)
    (htm : timeMatch (normalizeT inp) = some (h, m, mer))
    (hle : adjustMer h mer ≤ 23) (hm59 : m ≤ 59) :
    parse_timeE vz toUTC fb nowC inp zone
      = .ok (some (rolloverAdjust (withTz nowC zone)
          (setHM (withTz nowC zone) (adjustMer h mer) m))) := by
  have hne : normalizeT inp ≠ "now" := by
    intro he
    rw [he, show timeMatch "now" = none from by decide] at htm
    cases htm
  unfold parse_timeE
  rw [if_neg (by simp [hvz]), if_neg hne]
  simp only [hsm, htm]
  rw [if_pos ⟨hle, hm59⟩]

theorem parse_timeE_fallthrough (vz : String → Bool) (toUTC : Datetime → Datetime)
    (fb : String → Option Datetime) (nowC : Datetime) (inp zone : String)
    (hvz : vz zone = true)
    (hne : normalizeT inp ≠ "now")
    (hsm : simpleHourMatch (normalizeT inp) = none)
    (htm : timeMatch (normalizeT inp) = none) :
    parse_timeE vz toUTC fb nowC inp zone
      = afterClock toUTC fb zone (withTz nowC zone) (normalizeT inp) := by
  unfold parse_timeE
  rw [if_neg (by simp [hvz]), if_neg hne]
  simp only [hsm, htm]

theorem parse_timeE_clock_range_fail (vz : String → Bool)
    (toUTC : Datetime → Datetime) (fb : String → Option Datetime)
    (nowC : Datetime) (inp zone : String) (h m : Nat) (mer : Option Bool)
    (hvz : vz zone = true)
    (hsm : simpleHourMatch (normalizeT inp) = none)
    (htm : timeMatch (normalizeT inp) = some (h, m, mer))
    (hout : ¬ (adjustMer h mer ≤ 23 ∧ m ≤ 59)) :
    parse_timeE vz toUTC fb nowC inp zone
      = afterClock toUTC fb zone (withTz nowC zone) (normalizeT inp) := by
  have hne : normalizeT inp ≠ "now" := by
    intro he
    rw [he, show timeMatch "now" = none from by decide] at htm
    cases htm
  unfold parse_timeE
  rw [if_neg (by simp [hvz]), if_neg hne]
  simp only [hsm, htm]
  rw [if_neg hout]

theorem rolloverAdjust_past_small (now r : Datetime)
    (h1 : toEpochUs r < toEpochUs now)
    (h2 : toEpochUs now - toEpochUs r ≤ twelveHoursUs) :
    rolloverAdjust now r = r := by
  unfold rolloverAdjust
  rw [if_pos h1, if_neg (by omega)]

theorem rolloverAdjust_past_large (now r : Datetime)
    (h1 : toEpochUs r < toEpochUs now)
    (h2 : twelveHoursUs < toEpochUs now - toEpochUs r) :
    rolloverAdjust now r = addOneDay r := by
  unfold rolloverAdjust
  rw [if_pos h1, if_pos h2]

theorem rolloverAdjust_future (now r : Datetime)
    (h1 : ¬ toEpochUs r < toEpochUs now) :
    rolloverAdjust now r = r := by
  unfold rolloverAdjust
  rw [if_neg h1]

theorem tzinfo_setHM (dt : Datetime) (h m : Nat) :
    (setHM dt h m).tzinfo = dt.tzinfo := rfl

theorem tzinfo_addOneDay (dt : Datetime) :
    (addOneDay dt).tzinfo = dt.tzinfo := rfl

theorem tzinfo_addUs (dt : Datetime) (n : Nat) :
    (addUs dt n).tzinfo = dt.tzinfo := rfl

theorem tzinfo_rolloverAdjust (now r : Datetime) :
    (rolloverAdjust now r).tzinfo = r.tzinfo := by
  unfold rolloverAdjust
  split
  · split
    · exact tzinfo_addOneDay r
    · rfl
  · rfl

theorem hour_rolloverAdjust (now r : Datetime) :
    (rolloverAdjust now r).hour = r.hour := by
  unfold rolloverAdjust
  split
  · split
    · rfl
    · rfl
  · rfl

/-! ### Concrete environments used by witnesses -/

/-- A zone-validity oracle accepting exactly America/Chicago. -/
def vzChi : String → Bool := fun z => z == "America/Chicago"

/-- An `astimezone(pytz.UTC)` model that relabels the zone (offset
arithmetic is external to the resolver and irrelevant to the claims). -/
def toUTCtag : Datetime → Datetime := fun d => { d with tzinfo := some "UTC" }

/-- A dateparser capability that finds nothing. -/
def fbNone : String → Option Datetime := fun _ => none

/-- A fuzzywuzzy scorer that matches nothing (never consulted on the paths
the exact-match claims exercise). -/
def scoreZero : String → String → Nat := fun _ _ => 0

/-- A small stand-in for `pytz.all_timezones`; like the real catalog it
contains both slash-form identifiers and the bare uppercase legacy zones
such as EST and UTC. -/
def demoCatalog : List String :=
  ["America/Chicago", "America/New_York", "EST", "UTC"]

/-! ### C1 -/

/-- C1 fails on the code: "EST" is a valid IANA identifier (it is in the
zone catalog), yet `find_timezone` checks the alias table first and maps it
to America/New_York instead of returning it unchanged. -/
theorem c1_counterexample :
    find_timezone scoreZero demoCatalog "EST" = (some "America/New_York", [])
  ∧ "EST" ∈ demoCatalog
  ∧ (some "America/New_York" : Option String) ≠ some "EST" := by
  refine ⟨by decide, by decide, by decide⟩

/-- C1 (amended): for every catalog identifier that normalization (strip +
uppercase) leaves unchanged and that is not a key of the alias table,
`find_timezone` returns it unchanged with no suggestions.  (Alias keys such
as EST are instead mapped through the alias table, and identifiers that are
not all-uppercase, e.g. "America/Chicago", never reach the exact-match step
because the input is uppercased first.) -/
theorem c1_exact_catalog_match (score : String → String → Nat)
    (catalog : List String) (z : String)
    (hc : catalog.contains z = true)
    (hn : normalizeZ z = z)
    (hl : COMMON_TIMEZONE_MAPPINGS.lookup z = none) :
    find_timezone score catalog z = (some z, []) := by
  unfold find_timezone
  simp only [hn, hl, hc, if_true]

/-- C1 witness: "UTC" is in the catalog, is fixed by normalization and is
not an alias key, so it resolves to itself with no suggestions. -/
theorem c1_exact_catalog_match_witness :
    find_timezone scoreZero demoCatalog "UTC" = (some "UTC", []) :=
  c1_exact_catalog_match scoreZero demoCatalog "UTC"
    (by decide) (by decide) (by decide)

/-! ### C2 -/

/-- A `TimeParser` cache state holding a fresh (one-minute-old, far within
the one-hour lifetime) entry for the key ("now", "America/Chicago"). -/
def demoCache : ParseCache :=
  [(("now", "America/Chicago"),
    (⟨2024, 6, 15, 9, 0, 0, 0, some "America/Chicago"⟩,
     ⟨2024, 6, 15, 9, 59, 0, 0, none⟩))]

/-- C2 fails on the code, which contradicts the cache machinery declared in
`TimeParser.__init__`: `parse_time` never consults or updates `self.cache`.
With an unexpired cached entry for ("now", Z) in place, a call at 10:00:00
and an identical call at 10:00:05 both ignore the cache (and each other)
and return two different instants; the cache is left untouched.  The fifth
conjunct checks the entry really is unexpired by the source's own test. -/
theorem c2_parse_time_ignores_cache :
    (parse_time_method demoCache vzChi toUTCtag fbNone
        ⟨2024, 6, 15, 10, 0, 0, 0, none⟩ "now" "America/Chicago").1
      = some ⟨2024, 6, 15, 10, 0, 0, 0, some "America/Chicago"⟩
  ∧ (parse_time_method demoCache vzChi toUTCtag fbNone
        ⟨2024, 6, 15, 10, 0, 5, 0, none⟩ "now" "America/Chicago").1
      = some ⟨2024, 6, 15, 10, 0, 5, 0, some "America/Chicago"⟩
  ∧ some (⟨2024, 6, 15, 10, 0, 0, 0, some "America/Chicago"⟩ : Datetime)
      ≠ some (⟨2024, 6, 15, 10, 0, 5, 0, some "America/Chicago"⟩ : Datetime)
  ∧ (parse_time_method demoCache vzChi toUTCtag fbNone
        ⟨2024, 6, 15, 10, 0, 0, 0, none⟩ "now" "America/Chicago").2 = demoCache
  ∧ clean_cache_filter ⟨2024, 6, 15, 10, 0, 0, 0, none⟩ demoCache = demoCache := by
  refine ⟨by decide, by decide, by decide, by decide, by decide⟩

/-! ### C8 -/

/-- C8: `find_timezone` is a total function (the embedding returns a value
for every input), and whenever it reports no match the suggestion list has
at most 3 entries and is nonempty unless the catalog itself is empty. -/
theorem c8_no_match_suggestions (score : String → String → Nat)
    (catalog : List String) (inp : String) (sug : List String)
    (h : find_timezone score catalog inp = (none, sug)) :
    sug.length ≤ 3 ∧ (catalog ≠ [] → sug ≠ []) := by
  unfold find_timezone at h
  cases hl : COMMON_TIMEZONE_MAPPINGS.lookup (normalizeZ inp) with
  | some z => simp only [hl, Prod.mk.injEq] at h; cases h.1
  | none =>
    simp only [hl] at h
    by_cases hc : catalog.contains (normalizeZ inp)
    · simp only [hc, if_true, Prod.mk.injEq] at h
      cases h.1
    · simp only [hc, Bool.false_eq_true, if_false] at h
      cases he : extractOneAlias score (normalizeZ inp) with
      | some k =>
        simp only [he, Prod.mk.injEq] at h
        have hs := extractOneAlias_lookup_isSome score (normalizeZ inp) k he
        rw [h.1] at hs
        cases hs
      | none =>
        simp only [he] at h
        cases ht : extractTop3 score (normalizeZ inp) catalog with
        | nil =>
          simp only [ht, Prod.mk.injEq] at h
          have hlen : min 3 catalog.length = 0 := by
            rw [← extractTop3_length score (normalizeZ inp) catalog, ht]
            rfl
          have hcat : catalog = [] := by
            apply List.length_eq_zero.mp
            omega
          constructor
          · rw [← h.2]; decide
          · intro hne; exact absurd hcat hne
        | cons b rest =>
          simp only [ht] at h
          by_cases hb : 85 ≤ b.2
          · simp only [hb, if_true, Prod.mk.injEq] at h
            cases h.1
          · simp only [hb, if_false, Prod.mk.injEq] at h
            have hlen : (b :: rest).length = min 3 catalog.length := by
              rw [← extractTop3_length score (normalizeZ inp) catalog, ht]
            constructor
            · rw [← h.2, List.length_map]
              omega
            · intro _
              rw [← h.2]
              simp

/-- C8 witness: pure-noise input against a two-zone catalog yields no match
and a nonempty suggestion list of length at most 3. -/
theorem c8_no_match_suggestions_witness :
    (["UTC", "Zulu"] : List String) ≠ []
  ∧ (["UTC", "Zulu"] : List String).length ≤ 3
  ∧ (["UTC", "Zulu"] : List String) ≠ [] := by
  refine ⟨by decide, ?_, ?_⟩
  · exact (c8_no_match_suggestions scoreZero ["UTC", "Zulu"] "zzz!"
      ["UTC", "Zulu"] (by decide)).1
  · exact (c8_no_match_suggestions scoreZero ["UTC", "Zulu"] "zzz!"
      ["UTC", "Zulu"] (by decide)).2 (by decide)

/-! ### C3 -/

/-- C3 fails on the code: at reference time 02:00 the constructed instant
01:00 is only one hour in the past, the gap does not exceed 12 hours, so no
rollover happens and the result is 01:00 of the SAME day, not of the
following day as the claim states. -/
theorem c3_counterexample :
    parse_time vzChi toUTCtag fbNone ⟨2024, 6, 15, 2, 0, 0, 0, none⟩
        "1am" "America/Chicago"
      = some ⟨2024, 6, 15, 1, 0, 0, 0, some "America/Chicago"⟩
  ∧ parse_time vzChi toUTCtag fbNone ⟨2024, 6, 15, 2, 0, 0, 0, none⟩
        "1am" "America/Chicago"
      ≠ some ⟨2024, 6, 16, 1, 0, 0, 0, some "America/Chicago"⟩ := by
  refine ⟨by decide, by decide⟩

/-- C3 (amended): when the reference time is 02:00 in zone Z,
`parse_time("1am", Z)` resolves to 01:00 of the SAME day in Z (the gap is
one hour, at most 12, so the date does not roll over), for every date and
every valid zone. -/
theorem c3_one_am_at_two (vz : String → Bool) (toUTC : Datetime → Datetime)
    (fb : String → Option Datetime) (y mo d : Nat) (tz0 : Option String)
    (zone : String) (hvz : vz zone = true) :
    parse_time vz toUTC fb ⟨y, mo, d, 2, 0, 0, 0, tz0⟩ "1am" zone
      = some ⟨y, mo, d, 1, 0, 0, 0, some zone⟩ := by
  have h1 := parse_timeE_simpleHour vz toUTC fb ⟨y, mo, d, 2, 0, 0, 0, tz0⟩
    "1am" zone 1 false hvz (by decide) (by decide)
  rw [parse_time_ok _ _ _ _ _ _ _ h1]
  rw [rolloverAdjust_past_small]
  · rfl
  · simp [toEpochUs, todUs, setHM, withTz, usPerDay, adjustMer]
  · simp [toEpochUs, todUs, setHM, withTz, usPerDay, twelveHoursUs, adjustMer]

/-- C3 witness: the amended behavior at a concrete date and zone. -/
theorem c3_one_am_at_two_witness :
    parse_time vzChi toUTCtag fbNone ⟨2025, 1, 2, 2, 0, 0, 0, none⟩
        "1am" "America/Chicago"
      = some ⟨2025, 1, 2, 1, 0, 0, 0, some "America/Chicago"⟩ :=
  c3_one_am_at_two vzChi toUTCtag fbNone 2025 1 2 none "America/Chicago"
    (by decide)

/-! ### C4 -/

/-- C4: for a simple-hour input (first conjunct) or a clock-form input
(second conjunct), writing `r` for the requested time-of-day placed on
today's date in the reference zone: if `r` is in the past the date advances
by one day exactly when the gap `now - r` exceeds 12 hours; a gap of at
most 12 hours, or a future `r`, keeps today's date. -/
theorem c4_rollover_threshold :
    (∀ (vz : String → Bool) (toUTC : Datetime → Datetime)
       (fb : String → Option Datetime) (nowC : Datetime) (inp zone : String)
       (h : Nat) (p : Bool),
       vz zone = true →
       simpleHourMatch (normalizeT inp) = some (h, p) →
       adjustMer h (some p) ≤ 23 →
       (toEpochUs (setHM (withTz nowC zone) (adjustMer h (some p)) 0)
            < toEpochUs (withTz nowC zone) →
          toEpochUs (withTz nowC zone)
              - toEpochUs (setHM (withTz nowC zone) (adjustMer h (some p)) 0)
            ≤ twelveHoursUs →
          parse_time vz toUTC fb nowC inp zone
            = some (setHM (withTz nowC zone) (adjustMer h (some p)) 0)) ∧
       (toEpochUs (setHM (withTz nowC zone) (adjustMer h (some p)) 0)
            < toEpochUs (withTz nowC zone) →
          twelveHoursUs
            < toEpochUs (withTz nowC zone)
              - toEpochUs (setHM (withTz nowC zone) (adjustMer h (some p)) 0) →
          parse_time vz toUTC fb nowC inp zone
            = some (addOneDay (setHM (withTz nowC zone) (adjustMer h (some p)) 0))) ∧
       (¬ toEpochUs (setHM (withTz nowC zone) (adjustMer h (some p)) 0)
            < toEpochUs (withTz nowC zone) →
          parse_time vz toUTC fb nowC inp zone
            = some (setHM (withTz nowC zone) (adjustMer h (some p)) 0)))
  ∧ (∀ (vz : String → Bool) (toUTC : Datetime → Datetime)
       (fb : String → Option Datetime) (nowC : Datetime) (inp zone : String)
       (h m : Nat) (mer : Option Bool),
       vz zone = true →
       simpleHourMatch (normalizeT inp) = none →
       timeMatch (normalizeT inp) = some (h, m, mer) →
       adjustMer h mer ≤ 23 → m ≤ 59 →
       (toEpochUs (setHM (withTz nowC zone) (adjustMer h mer) m)
            < toEpochUs (withTz nowC zone) →
          toEpochUs (withTz nowC zone)
              - toEpochUs (setHM (withTz nowC zone) (adjustMer h mer) m)
            ≤ twelveHoursUs →
          parse_time vz toUTC fb nowC inp zone
            = some (setHM (withTz nowC zone) (adjustMer h mer) m)) ∧
       (toEpochUs (setHM (withTz nowC zone) (adjustMer h mer) m)
            < toEpochUs (withTz nowC zone) →
          twelveHoursUs
            < toEpochUs (withTz nowC zone)
              - toEpochUs (setHM (withTz nowC zone) (adjustMer h mer) m) →
          parse_time vz toUTC fb nowC inp zone
            = some (addOneDay (setHM (withTz nowC zone) (adjustMer h mer) m))) ∧
       (¬ toEpochUs (setHM (withTz nowC zone) (adjustMer h mer) m)
            < toEpochUs (withTz nowC zone) →
          parse_time vz toUTC fb nowC inp zone
            = some (setHM (withTz nowC zone) (adjustMer h mer) m))) := by
  constructor
  · intro vz toUTC fb nowC inp zone h p hvz hsm hle
    have hE := parse_timeE_simpleHour vz toUTC fb nowC inp zone h p hvz hsm hle
    have hP := parse_time_ok _ _ _ _ _ _ _ hE
    refine ⟨fun h1 h2 => ?_, fun h1 h2 => ?_, fun h1 => ?_⟩
    · rw [hP, rolloverAdjust_past_small _ _ h1 h2]
    · rw [hP, rolloverAdjust_past_large _ _ h1 h2]
    · rw [hP, rolloverAdjust_future _ _ h1]
  · intro vz toUTC fb nowC inp zone h m mer hvz hsm htm hle hm59
    have hE := parse_timeE_clock vz toUTC fb nowC inp zone h m mer hvz hsm htm hle hm59
    have hP := parse_time_ok _ _ _ _ _ _ _ hE
    refine ⟨fun h1 h2 => ?_, fun h1 h2 => ?_, fun h1 => ?_⟩
    · rw [hP, rolloverAdjust_past_small _ _ h1 h2]
    · rw [hP, rolloverAdjust_past_large _ _ h1 h2]
    · rw [hP, rolloverAdjust_future _ _ h1]

/-- C4 witness: at 14:55 "3pm" stays today 15:00 (future time, and the
claim's concrete example); at 23:50 "2am" means tomorrow 02:00 (past by
more than 12 hours, so the date rolls). -/
theorem c4_rollover_threshold_witness :
    parse_time vzChi toUTCtag fbNone ⟨2024, 6, 15, 14, 55, 30, 7, none⟩
        "3pm" "America/Chicago"
      = some ⟨2024, 6, 15, 15, 0, 0, 0, some "America/Chicago"⟩
  ∧ parse_time vzChi toUTCtag fbNone ⟨2024, 6, 15, 23, 50, 0, 0, none⟩
        "2am" "America/Chicago"
      = some ⟨2024, 6, 16, 2, 0, 0, 0, some "America/Chicago"⟩ := by
  constructor
  · have h := (c4_rollover_threshold.1 vzChi toUTCtag fbNone
      ⟨2024, 6, 15, 14, 55, 30, 7, none⟩ "3pm" "America/Chicago" 3 true
      (by decide) (by decide) (by decide)).2.2 (by decide)
    rw [h]
    rfl
  · have h := (c4_rollover_threshold.1 vzChi toUTCtag fbNone
      ⟨2024, 6, 15, 23, 50, 0, 0, none⟩ "2am" "America/Chicago" 2 false
      (by decide) (by decide) (by decide)).2.1 (by decide) (by decide)
    rw [h]
    rfl

/-! ### C10 -/

/-- C10: a clock-form input with a pm suffix and 13 ≤ H ≤ 23 is accepted
and the suffix is inert (the hour stays H; compare `adjustMer`, which adds
12 only when H < 12 under pm, and maps 12am to hour 0). -/
theorem c10_pm_suffix_inert :
    (∀ (vz : String → Bool) (toUTC : Datetime → Datetime)
       (fb : String → Option Datetime) (nowC : Datetime) (inp zone : String)
       (h m : Nat),
       vz zone = true →
       simpleHourMatch (normalizeT inp) = none →
       timeMatch (normalizeT inp) = some (h, m, some true) →
       13 ≤ h → h ≤ 23 → m ≤ 59 →
       parse_time vz toUTC fb nowC inp zone
         = some (rolloverAdjust (withTz nowC zone) (setHM (withTz nowC zone) h m))
       ∧ (rolloverAdjust (withTz nowC zone) (setHM (withTz nowC zone) h m)).hour = h)
  ∧ (∀ h : Nat, h < 12 → adjustMer h (some true) = h + 12)
  ∧ adjustMer 12 (some false) = 0 := by
  refine ⟨?_, fun h hlt => if_pos hlt, by decide⟩
  intro vz toUTC fb nowC inp zone h m hvz hsm htm h13 h23 hm59
  have hadj : adjustMer h (some true) = h := if_neg (by omega)
  have hE := parse_timeE_clock vz toUTC fb nowC inp zone h m (some true)
    hvz hsm htm (by rw [hadj]; exact h23) hm59
  rw [hadj] at hE
  exact ⟨parse_time_ok _ _ _ _ _ _ _ hE,
    by rw [hour_rolloverAdjust]; rfl⟩

/-- C10 witness: "13:30pm" parses to 13:30 (hour 13 kept, pm ignored). -/
theorem c10_pm_suffix_inert_witness :
    parse_time vzChi toUTCtag fbNone ⟨2024, 6, 15, 14, 55, 30, 7, none⟩
        "13:30pm" "America/Chicago"
      = some ⟨2024, 6, 15, 13, 30, 0, 0, some "America/Chicago"⟩ := by
  have h := (c10_pm_suffix_inert.1 vzChi toUTCtag fbNone
    ⟨2024, 6, 15, 14, 55, 30, 7, none⟩ "13:30pm" "America/Chicago" 13 30
    (by decide) (by decide) (by decide) (by decide) (by decide) (by decide)).1
  rw [h]
  decide

/-! ### C6 -/

theorem afterClock_none (toUTC : Datetime → Datetime)
    (fb : String → Option Datetime) (zone : String) (now : Datetime)
    (t : String)
    (hrel : relativeMatch t = none)
    (hmds : monthDaySearch t.toList = none)
    (hfb : fb t = none) :
    afterClock toUTC fb zone now t = .ok none := by
  unfold afterClock
  simp only [hrel]
  have hMD : stageMonthDay zone now t = none := by
    unfold stageMonthDay
    simp only [hmds]
  simp only [hMD]
  unfold stageFallback
  simp only [hfb]

/-- C6: a structurally clock-form input whose (meridian-adjusted) hour
exceeds 23 or whose minute exceeds 59 produces no instant from the clock
stage; it is handed to the same fallback as unparseable input, and when
that fallback finds nothing the call yields no result — the value is never
clamped. -/
theorem c6_out_of_range_clock (vz : String → Bool) (toUTC : Datetime → Datetime)
    (fb : String → Option Datetime) (nowC : Datetime) (inp zone : String)
    (h m : Nat) (mer : Option Bool)
    (hvz : vz zone = true)
    (hsm : simpleHourMatch (normalizeT inp) = none)
    (htm : timeMatch (normalizeT inp) = some (h, m, mer))
    (hout : ¬ (adjustMer h mer ≤ 23 ∧ m ≤ 59))
    (hrel : relativeMatch (normalizeT inp) = none)
    (hmds : monthDaySearch (normalizeT inp).toList = none)
    (hfb : fb (normalizeT inp) = none) :
    parse_time vz toUTC fb nowC inp zone = none := by
  have hE := parse_timeE_clock_range_fail vz toUTC fb nowC inp zone h m mer
    hvz hsm htm hout
  have hA := afterClock_none toUTC fb zone (withTz nowC zone) (normalizeT inp)
    hrel hmds hfb
  exact parse_time_ok _ _ _ _ _ _ _ (hE.trans hA)

/-- C6 witness: "13:75" (minute 75) matches the clock pattern structurally
and yields no result, with no clamping. -/
theorem c6_out_of_range_clock_witness :
    parse_time vzChi toUTCtag fbNone ⟨2024, 6, 15, 14, 55, 30, 7, none⟩
        "13:75" "America/Chicago" = none :=
  c6_out_of_range_clock vzChi toUTCtag fbNone
    ⟨2024, 6, 15, 14, 55, 30, 7, none⟩ "13:75" "America/Chicago" 13 75 none
    (by decide) (by decide) (by decide) (by decide) (by decide) (by decide)
    (by decide)

/-! ### C7 -/

/-- C7: failure is data, never an escaping fault.  First conjunct: an
unknown reference zone (where `pytz.timezone` raises inside the body) still
returns no result.  Second conjunct: whatever error the body raises, the
caller sees `none`.  Third conjunct: input matching no cascade stage, with
an empty-handed fallback, returns `none`. -/
theorem c7_failures_become_none :
    (∀ (vz : String → Bool) (toUTC : Datetime → Datetime)
       (fb : String → Option Datetime) (nowC : Datetime) (inp zone : String),
       vz zone = false →
       parse_time vz toUTC fb nowC inp zone = none)
  ∧ (∀ (vz : String → Bool) (toUTC : Datetime → Datetime)
       (fb : String → Option Datetime) (nowC : Datetime) (inp zone : String)
       (e : String),
       parse_timeE vz toUTC fb nowC inp zone = Except.error e →
       parse_time vz toUTC fb nowC inp zone = none)
  ∧ (∀ (vz : String → Bool) (toUTC : Datetime → Datetime)
       (fb : String → Option Datetime) (nowC : Datetime) (inp zone : String),
       normalizeT inp ≠ "now" →
       simpleHourMatch (normalizeT inp) = none →
       timeMatch (normalizeT inp) = none →
       relativeMatch (normalizeT inp) = none →
       monthDaySearch (normalizeT inp).toList = none →
       fb (normalizeT inp) = none →
       parse_time vz toUTC fb nowC inp zone = none) := by
  refine ⟨?_, ?_, ?_⟩
  · intro vz toUTC fb nowC inp zone hvz
    apply parse_time_error _ _ _ _ _ _ "UnknownTimeZoneError"
    unfold parse_timeE
    rw [if_pos hvz]
  · intro vz toUTC fb nowC inp zone e hE
    exact parse_time_error _ _ _ _ _ _ e hE
  · intro vz toUTC fb nowC inp zone hne hsm htm hrel hmds hfb
    cases hvz : vz zone with
    | false =>
      apply parse_time_error _ _ _ _ _ _ "UnknownTimeZoneError"
      unfold parse_timeE
      rw [if_pos hvz]
    | true =>
      have hE := parse_timeE_fallthrough vz toUTC fb nowC inp zone hvz hne hsm htm
      have hA := afterClock_none toUTC fb zone (withTz nowC zone)
        (normalizeT inp) hrel hmds hfb
      exact parse_time_ok _ _ _ _ _ _ _ (hE.trans hA)

/-- C7 witness: "not a time" yields no result with a valid zone, and an
unknown zone (an in-body exception) also yields no result. -/
theorem c7_failures_become_none_witness :
    parse_time vzChi toUTCtag fbNone ⟨2024, 6, 15, 10, 0, 0, 0, none⟩
        "not a time" "America/Chicago" = none
  ∧ parse_time vzChi toUTCtag fbNone ⟨2024, 6, 15, 10, 0, 0, 0, none⟩
        "3pm" "Mars/Olympus" = none := by
  constructor
  · exact c7_failures_become_none.2.2 vzChi toUTCtag fbNone
      ⟨2024, 6, 15, 10, 0, 0, 0, none⟩ "not a time" "America/Chicago"
      (by decide) (by decide) (by decide) (by decide) (by decide) (by decide)
  · exact c7_failures_become_none.1 vzChi toUTCtag fbNone
      ⟨2024, 6, 15, 10, 0, 0, 0, none⟩ "3pm" "Mars/Olympus" (by decide)

/-! ### C9 -/

theorem replaceHM_ok (dt : Datetime) (h m : Nat) (r : Datetime)
    (hr : replaceHM dt h m = .ok r) : r = setHM dt h m := by
  unfold replaceHM at hr
  split at hr
  · cases hr
    rfl
  · cases hr

theorem stageMonthDay_tz (zone : String) (now : Datetime) (t : String)
    (r : Datetime) (h : stageMonthDay zone now t = some r) :
    r.tzinfo = some zone := by
  unfold stageMonthDay at h
  cases hm : monthDaySearch t.toList with
  | none =>
    simp only [hm] at h
    cases h
  | some x =>
    obtain ⟨txt, mo, d⟩ := x
    simp only [hm] at h
    split at h
    · cases h
      rfl
    · cases h

theorem stageFallback_tz (toUTC : Datetime → Datetime)
    (fb : String → Option Datetime) (now : Datetime) (t : String)
    (r : Datetime)
    (hUTC : ∀ d, (toUTC d).tzinfo.isSome)
    (hnow : now.tzinfo.isSome)
    (h : stageFallback toUTC fb now t = .ok (some r)) :
    r.tzinfo.isSome := by
  unfold stageFallback at h
  cases hfb : fb t with
  | none =>
    simp only [hfb] at h
    cases h
  | some pd =>
    simp only [hfb] at h
    split at h
    · simp only [Except.ok.injEq, Option.some.injEq] at h
      rw [← h]
      exact hUTC pd
    · split at h
      · simp only [Except.ok.injEq, Option.some.injEq] at h
        rw [← h]
        exact hUTC pd
      · cases hrep : replaceHM now pd.hour pd.minute with
        | error e =>
          simp only [hrep] at h
          cases h
        | ok rr =>
          simp only [hrep, Except.ok.injEq, Option.some.injEq] at h
          rw [← h, tzinfo_rolloverAdjust, replaceHM_ok _ _ _ _ hrep,
            tzinfo_setHM]
          exact hnow

theorem afterClock_tz (toUTC : Datetime → Datetime)
    (fb : String → Option Datetime) (zone : String) (now : Datetime)
    (t : String) (r : Datetime)
    (hUTC : ∀ d, (toUTC d).tzinfo.isSome)
    (hnow : now.tzinfo.isSome)
    (h : afterClock toUTC fb zone now t = .ok (some r)) :
    r.tzinfo.isSome := by
  unfold afterClock at h
  cases hrel : relativeMatch t with
  | some nb =>
    obtain ⟨n, isH⟩ := nb
    simp only [hrel, Except.ok.injEq, Option.some.injEq] at h
    rw [← h]
    split
    · rw [tzinfo_addUs]; exact hnow
    · rw [tzinfo_addUs]; exact hnow
  | none =>
    simp only [hrel] at h
    cases hmd : stageMonthDay zone now t with
    | some rr =>
      simp only [hmd, Except.ok.injEq, Option.some.injEq] at h
      rw [← h, stageMonthDay_tz zone now t rr hmd]
      rfl
    | none =>
      simp only [hmd] at h
      exact stageFallback_tz toUTC fb now t r hUTC hnow h

theorem parse_timeE_tz (vz : String → Bool) (toUTC : Datetime → Datetime)
    (fb : String → Option Datetime) (nowC : Datetime) (inp zone : String)
    (r : Datetime)
    (hUTC : ∀ d, (toUTC d).tzinfo.isSome)
    (h : parse_timeE vz toUTC fb nowC inp zone = .ok (some r)) :
    r.tzinfo.isSome := by
  have hnow : (withTz nowC zone).tzinfo.isSome := rfl
  unfold parse_timeE at h
  by_cases hvz : vz zone = false
  · rw [if_pos hvz] at h
    cases h
  · rw [if_neg hvz] at h
    by_cases hne : normalizeT inp = "now"
    · rw [if_pos hne] at h
      simp only [Except.ok.injEq, Option.some.injEq] at h
      rw [← h]
      exact hnow
    · rw [if_neg hne] at h
      cases hsm : simpleHourMatch (normalizeT inp) with
      | some hp =>
        obtain ⟨hh, pp⟩ := hp
        simp only [hsm] at h
        cases hrep : replaceHM (withTz nowC zone) (adjustMer hh (some pp)) 0 with
        | error e =>
          simp only [hrep] at h
          cases h
        | ok rr =>
          simp only [hrep, Except.ok.injEq, Option.some.injEq] at h
          rw [← h, tzinfo_rolloverAdjust, replaceHM_ok _ _ _ _ hrep,
            tzinfo_setHM]
          exact hnow
      | none =>
        simp only [hsm] at h
        cases htm : timeMatch (normalizeT inp) with
        | some t3 =>
          obtain ⟨hh, mm, mer⟩ := t3
          simp only [htm] at h
          split at h
          · simp only [Except.ok.injEq, Option.some.injEq] at h
            rw [← h, tzinfo_rolloverAdjust, tzinfo_setHM]
            exact hnow
          · exact afterClock_tz toUTC fb zone (withTz nowC zone)
              (normalizeT inp) r hUTC hnow h
        | none =>
          simp only [htm] at h
          exact afterClock_tz toUTC fb zone (withTz nowC zone)
            (normalizeT inp) r hUTC hnow h

/-- C9: whenever `parse_time` returns an instant, that instant is
timezone-aware (its `tzinfo` is set, so it is convertible to UTC), for
every input, zone, clock reading and fallback — given only that the
external `astimezone(pytz.UTC)` conversion returns aware values, which
Python guarantees. -/
theorem c9_results_are_aware (vz : String → Bool) (toUTC : Datetime → Datetime)
    (fb : String → Option Datetime) (nowC : Datetime) (inp zone : String)
    (r : Datetime)
    (hUTC : ∀ d, (toUTC d).tzinfo.isSome)
    (h : parse_time vz toUTC fb nowC inp zone = some r) :
    r.tzinfo.isSome := by
  unfold parse_time at h
  cases hE : parse_timeE vz toUTC fb nowC inp zone with
  | ok v =>
    rw [hE] at h
    have h' : v = some r := h
    rw [h'] at hE
    exact parse_timeE_tz vz toUTC fb nowC inp zone r hUTC hE
  | error e =>
    rw [hE] at h
    cases h

/-- C9 witness: the result of parsing "3pm" carries an explicit zone. -/
theorem c9_results_are_aware_witness :
    (⟨2024, 6, 15, 15, 0, 0, 0, some "America/Chicago"⟩ : Datetime).tzinfo.isSome :=
  c9_results_are_aware vzChi toUTCtag fbNone
    ⟨2024, 6, 15, 14, 55, 30, 7, none⟩ "3pm" "America/Chicago"
    ⟨2024, 6, 15, 15, 0, 0, 0, some "America/Chicago"⟩
    (fun _ => rfl) (by decide)

/-! ### C5 -/

theorem parse_timeE_monthDay (vz : String → Bool) (toUTC : Datetime → Datetime)
    (fb : String → Option Datetime) (nowC : Datetime) (inp zone : String)
    (r : Datetime)
    (hvz : vz zone = true)
    (hsm : simpleHourMatch (normalizeT inp) = none)
    (htm : timeMatch (normalizeT inp) = none)
    (hrel : relativeMatch (normalizeT inp) = none)
    (hmd : stageMonthDay zone (withTz nowC zone) (normalizeT inp) = some r) :
    parse_timeE vz toUTC fb nowC inp zone = .ok (some r) := by
  have hne : normalizeT inp ≠ "now" := by
    intro he
    rw [he] at hmd
    rw [show stageMonthDay zone (withTz nowC zone) "now" = none from by
      unfold stageMonthDay
      rw [show monthDaySearch "now".toList = none from by decide]] at hmd
    cases hmd
  rw [parse_timeE_fallthrough vz toUTC fb nowC inp zone hvz hne hsm htm]
  unfold afterClock
  simp only [hrel, hmd]

/-- C5: a month-and-day input resolves to the current year, or to the next
year exactly when the (month, day) pair is strictly before the current
(month, day); the extracted time-of-day is used, and it defaults to
midnight when the residue of the input matches neither clock pattern. -/
theorem c5_month_day_year (vz : String → Bool) (toUTC : Datetime → Datetime)
    (fb : String → Option Datetime) (nowC : Datetime) (inp zone : String)
    (txt : List Char) (mo d : Nat)
    (hvz : vz zone = true)
    (hsm : simpleHourMatch (normalizeT inp) = none)
    (htm : timeMatch (normalizeT inp) = none)
    (hrel : relativeMatch (normalizeT inp) = none)
    (hmds : monthDaySearch (normalizeT inp).toList = some (txt, mo, d))
    (hd1 : 1 ≤ d)
    (hd2 : d ≤ daysInMonth
      (if mo < nowC.month ∨ (mo = nowC.month ∧ d < nowC.day)
       then nowC.year + 1 else nowC.year) mo)
    (hh23 : (monthDayTime (timePartOf (normalizeT inp) txt)).1 ≤ 23)
    (hm59 : (monthDayTime (timePartOf (normalizeT inp) txt)).2 ≤ 59) :
    parse_time vz toUTC fb nowC inp zone
      = some { year := if mo < nowC.month ∨ (mo = nowC.month ∧ d < nowC.day)
                       then nowC.year + 1 else nowC.year,
               month := mo, day := d,
               hour := (monthDayTime (timePartOf (normalizeT inp) txt)).1,
               minute := (monthDayTime (timePartOf (normalizeT inp) txt)).2,
               second := 0, microsecond := 0, tzinfo := some zone }
    ∧ (timeMatch (timePartOf (normalizeT inp) txt) = none →
       simpleHourMatch (timePartOf (normalizeT inp) txt) = none →
       (monthDayTime (timePartOf (normalizeT inp) txt)).1 = 0
       ∧ (monthDayTime (timePartOf (normalizeT inp) txt)).2 = 0) := by
  constructor
  · have hMD : stageMonthDay zone (withTz nowC zone) (normalizeT inp)
        = some { year := monthDayYear (withTz nowC zone) mo d,
                 month := mo, day := d,
                 hour := (monthDayTime (timePartOf (normalizeT inp) txt)).1,
                 minute := (monthDayTime (timePartOf (normalizeT inp) txt)).2,
                 second := 0, microsecond := 0, tzinfo := some zone } := by
      unfold stageMonthDay
      simp only [hmds]
      rw [if_pos]
      exact ⟨hd1, hd2, hh23, hm59⟩
    exact parse_time_ok _ _ _ _ _ _ _
      (parse_timeE_monthDay vz toUTC fb nowC inp zone _ hvz hsm htm hrel hMD)
  · intro h1 h2
    unfold monthDayTime
    simp only [h1, h2]
    exact ⟨trivial, trivial⟩

/-- C5 witness: with the current date 2024-06-15, "march 30" (already past)
resolves to midnight March 30 of 2025; with the current date 2024-01-10
(not yet reached) it resolves to March 30 of 2024. -/
theorem c5_month_day_year_witness :
    parse_time vzChi toUTCtag fbNone ⟨2024, 6, 15, 14, 55, 30, 7, none⟩
        "march 30" "America/Chicago"
      = some ⟨2025, 3, 30, 0, 0, 0, 0, some "America/Chicago"⟩
  ∧ parse_time vzChi toUTCtag fbNone ⟨2024, 1, 10, 14, 55, 30, 7, none⟩
        "march 30" "America/Chicago"
      = some ⟨2024, 3, 30, 0, 0, 0, 0, some "America/Chicago"⟩ := by
  constructor
  · have h := (c5_month_day_year vzChi toUTCtag fbNone
      ⟨2024, 6, 15, 14, 55, 30, 7, none⟩ "march 30" "America/Chicago"
      "march 30".toList 3 30 (by decide) (by decide) (by decide) (by decide)
      (by decide) (by decide) (by decide) (by decide) (by decide)).1
    rw [h]
    decide
  · have h := (c5_month_day_year vzChi toUTCtag fbNone
      ⟨2024, 1, 10, 14, 55, 30, 7, none⟩ "march 30" "America/Chicago"
      "march 30".toList 3 30 (by decide) (by decide) (by decide) (by decide)
      (by decide) (by decide) (by decide) (by decide) (by decide)).1
    rw [h]
    decide
